import Mathlib

/-!
Shallow embedding of the oneio stream-resolution pipeline (bgpkit/oneio).

The embedding models the pure control flow and data flow of the Rust source:

* `OneIoError` mirrors the error variants used by the embedded functions
  (`src/error.rs` and the variants referenced in `src/oneio/s3.rs`).
* `Reader` is a structural view of the decorator chain built by the pipeline:
  raw source leaves (local file or remote transport), the progress wrapper,
  and compression-decode wrappers.  Decorator composition order is thereby
  directly observable.
* `Sys` is the external world: the local filesystem as a finite map from path
  to byte list, remote locations as a finite map, and oracles for the HTTP
  HEAD content-length probe and the S3 head-object call.  Byte values are
  modelled as `Nat` (the embedding never inspects individual bytes).
* Effectful functions return, besides their result, the updated `Sys` and a
  log of raw open operations (`Access`), which makes frame properties such as
  "the original location is not contacted" provable.

Compression codec internals (gzip, bzip2, lz4, xz, zstd byte transforms) are
external collaborators of the library; the embedding keeps them symbolic as
`decode`/`encode` nodes, exactly as the source treats them as opaque stream
constructors.  Codec stream construction is modelled as infallible: in the
source every codec constructor returns `Ok` unconditionally except zstd,
whose only failure mode is allocation failure of the decompression context,
a resource-exhaustion condition outside this model.
-/

deriving instance DecidableEq for Except

namespace Oneio

/-- Error type of the library.  `Io`, `Network` and `NotSupported` are the
variants of `OneIoError` in `src/error.rs`; `S3UrlError` and
`S3DownloadError` are the variants referenced by `src/oneio/s3.rs`.
Error payloads that are foreign error objects are modelled as strings. -/
inductive OneIoError where
  | Io (msg : String)
  | Network (msg : String)
  | NotSupported (msg : String)
  | S3UrlError (url : String)
  | S3DownloadError (code : Nat)
deriving DecidableEq

/-- The five compression formats of the codec registry
(`src/oneio/compressions/mod.rs`). -/
inductive CompressionAlgo where
  | gzip
  | bzip2
  | lz4
  | xz
  | zstd
deriving DecidableEq

/-- Structural view of a reader: the decorator chain built by the pipeline.
Leaves carry the location they were opened from and the bytes the raw stream
delivers; wrappers record the decorators in composition order (outermost
constructor = outermost wrapper). -/
inductive Reader where
  | rawLocal (path : String) (bytes : List Nat)
  | rawRemote (loc : String) (bytes : List Nat)
  | progress (total : Nat) (inner : Reader)
  | decode (algo : CompressionAlgo) (inner : Reader)
deriving DecidableEq

/-- Structural view of a writer chain (raw local file sink, optionally
wrapped by a compression encoder). -/
inductive Writer where
  | rawFile (path : String)
  | encode (algo : CompressionAlgo) (inner : Writer)
deriving DecidableEq

/-- A raw open operation performed against the outside world: opening a
location for reading through the raw source provider, or opening a local
path for writing through the raw sink provider. -/
inductive Access where
  | openRead (loc : String)
  | openWrite (loc : String)
deriving DecidableEq

/-- Head-object metadata returned by the object-storage collaborator
(`HeadObjectResult` in `src/oneio/s3.rs`; only the field the embedded code
reads). `content_length` is an `i64` option in the source. -/
structure HeadObjectResult where
  content_length : Option Int
deriving DecidableEq

/-- The external world: local files, remote raw contents, and the oracles
for the HTTP HEAD probe and the S3 head-object call.

* `files`: local filesystem, path to byte content.
* `remote`: remote locations (http/https/ftp), full location to raw bytes;
  absence means the raw open fails.
* `s3Objects`: object storage, (bucket, key) to raw bytes.
* `httpHeadLen`: result of the HTTP HEAD probe for a location: `.error`
  models a failed request, `.ok none` a response without a usable
  Content-Length header, `.ok (some n)` a header that parses to `n`.
* `s3HeadObject`: result of `s3_bucket` + `bucket.head_object` for a
  (bucket, key): either an error from the S3 collaborator (credentials,
  region, network) or a `(HeadObjectResult, status-code)` pair. -/
structure Sys where
  files : List (String × List Nat)
  remote : List (String × List Nat)
  s3Objects : List ((String × String) × List Nat)
  httpHeadLen : String → Except String (Option Nat)
  s3HeadObject : String → String → Except OneIoError (HeadObjectResult × Nat)

/-- First-match association-list lookup (the filesystem / remote maps). -/
def lookupL {α : Type} [DecidableEq α] : List (α × List Nat) → α → Option (List Nat)
  | [], _ => none
  | (k, v) :: rest, key => if k = key then some v else lookupL rest key

/-- Scheme extraction on character lists: the characters before the first
occurrence of `"://"`, or `none` when `"://"` does not occur.  This is the
`parts[0]` / `parts.len() < 2` logic of `get_protocol` in
`src/oneio/mod.rs`. -/
def protocolChars : List Char → Option (List Char)
  | ':' :: '/' :: '/' :: _ => some []
  | c :: rest => (protocolChars rest).map (fun tail => c :: tail)
  | [] => none

/-- Embedding of `get_protocol` (`src/oneio/mod.rs`): split on `"://"`;
fewer than two parts means no scheme (local path), otherwise the scheme is
the text before the first `"://"`. -/
def get_protocol (path : String) : Option String :=
  (protocolChars path.data).map String.mk

/-- Splitting a character list on a single separator character, with Rust
`str::split` semantics (always at least one field; empty fields kept). -/
def splitChar (sep : Char) : List Char → List (List Char)
  | [] => [[]]
  | c :: rest =>
    let r := splitChar sep rest
    if c = sep then [] :: r
    else
      match r with
      | [] => [[c]]
      | h :: t => (c :: h) :: t

/-- String version of `splitChar`. -/
def splitOnChar (s : String) (sep : Char) : List String :=
  (splitChar sep s.data).map String.mk

/-- Embedding of `Vec<&str>::join(sep)`. -/
def joinWith (sep : String) : List String → String
  | [] => ""
  | [x] => x
  | x :: y :: ys => x ++ sep ++ joinWith sep (y :: ys)

/-- The characters after the last `.` of a character list; the whole list
when no `.` occurs.  This is the semantics of Rust
`path.rsplit(dot).next().unwrap_or(empty)`: the rightmost dot-separated
segment. -/
def afterLastDot : List Char → List Char
  | [] => []
  | c :: rest =>
    if '.' ∈ rest then afterLastDot rest
    else if c = '.' then rest
    else c :: rest

/-- Embedding of the suffix-token computation used by the read and write
pipelines (`path.rsplit(dot).next().unwrap_or(empty)` in
`src/oneio/mod.rs`). -/
def fileType (path : String) : String :=
  String.mk (afterLastDot path.data)

/-- Modelled from the spec wording only (for comparison with `fileType`):
the suffix token as the substring after the last `.` in the location,
lower-cased. -/
def spec_suffix_token (path : String) : String :=
  String.mk ((afterLastDot path.data).map Char.toLower)

/-! ## Codec registry (`src/oneio/compressions/`) -/

/-- `OneIOGzip::get_reader` wraps the raw reader in a gzip decode stream. -/
def OneIOGzip.get_reader (raw_reader : Reader) : Except OneIoError Reader :=
  .ok (.decode .gzip raw_reader)

/-- `OneIOGzip::get_writer` wraps the raw writer in a gzip encode stream. -/
def OneIOGzip.get_writer (raw_writer : Writer) : Except OneIoError Writer :=
  .ok (.encode .gzip raw_writer)

/-- `OneIOBzip2::get_reader`. -/
def OneIOBzip2.get_reader (raw_reader : Reader) : Except OneIoError Reader :=
  .ok (.decode .bzip2 raw_reader)

/-- `OneIOBzip2::get_writer`. -/
def OneIOBzip2.get_writer (raw_writer : Writer) : Except OneIoError Writer :=
  .ok (.encode .bzip2 raw_writer)

/-- `OneIOLz4::get_reader` (`src/oneio/compressions/lz4.rs`). -/
def OneIOLz4.get_reader (raw_reader : Reader) : Except OneIoError Reader :=
  .ok (.decode .lz4 raw_reader)

/-- `OneIOLz4::get_writer` (`src/oneio/compressions/lz4.rs`): lz4 writing is
not supported; always an error with this exact message. -/
def OneIOLz4.get_writer (_raw_writer : Writer) : Except OneIoError Writer :=
  .error (.NotSupported "lz4 writer is not currently supported.")

/-- `OneIOXz::get_reader`. -/
def OneIOXz.get_reader (raw_reader : Reader) : Except OneIoError Reader :=
  .ok (.decode .xz raw_reader)

/-- `OneIOXz::get_writer`. -/
def OneIOXz.get_writer (raw_writer : Writer) : Except OneIoError Writer :=
  .ok (.encode .xz raw_writer)

/-- `OneIOZstd::get_reader`. -/
def OneIOZstd.get_reader (raw_reader : Reader) : Except OneIoError Reader :=
  .ok (.decode .zstd raw_reader)

/-- `OneIOZstd::get_writer`. -/
def OneIOZstd.get_writer (raw_writer : Writer) : Except OneIoError Writer :=
  .ok (.encode .zstd raw_writer)

/-- Embedding of `get_compression_reader`
(`src/oneio/compressions/mod.rs`): dispatch on the suffix token; an
unrecognized suffix returns the raw reader unchanged. -/
def get_compression_reader (raw_reader : Reader) (file_suffix : String) :
    Except OneIoError Reader :=
  if file_suffix = "gz" ∨ file_suffix = "gzip" ∨ file_suffix = "tgz" then
    OneIOGzip.get_reader raw_reader
  else if file_suffix = "bz2" ∨ file_suffix = "bz" then
    OneIOBzip2.get_reader raw_reader
  else if file_suffix = "lz4" ∨ file_suffix = "lz" then
    OneIOLz4.get_reader raw_reader
  else if file_suffix = "xz" ∨ file_suffix = "xz2" ∨ file_suffix = "lzma" then
    OneIOXz.get_reader raw_reader
  else if file_suffix = "zst" ∨ file_suffix = "zstd" then
    OneIOZstd.get_reader raw_reader
  else
    .ok raw_reader

/-- Embedding of `get_compression_writer`
(`src/oneio/compressions/mod.rs`): dispatch on the suffix token; an
unrecognized suffix returns the raw writer unchanged. -/
def get_compression_writer (raw_writer : Writer) (file_suffix : String) :
    Except OneIoError Writer :=
  if file_suffix = "gz" ∨ file_suffix = "gzip" ∨ file_suffix = "tgz" then
    OneIOGzip.get_writer raw_writer
  else if file_suffix = "bz2" ∨ file_suffix = "bz" then
    OneIOBzip2.get_writer raw_writer
  else if file_suffix = "lz4" ∨ file_suffix = "lz" then
    OneIOLz4.get_writer raw_writer
  else if file_suffix = "xz" ∨ file_suffix = "xz2" ∨ file_suffix = "lzma" then
    OneIOXz.get_writer raw_writer
  else if file_suffix = "zst" ∨ file_suffix = "zstd" then
    OneIOZstd.get_writer raw_writer
  else
    .ok raw_writer

/-! ## Raw source and sink providers (`src/oneio/mod.rs`, `src/oneio/s3.rs`) -/

/-- Embedding of `s3_url_parse` (`src/oneio/s3.rs`): split on `/`; fewer
than three parts is a URL error, otherwise the bucket is `parts[2]` and the
key is `parts[3..].join("/")`. -/
def s3_url_parse (path : String) : Except OneIoError (String × String) :=
  let parts := splitOnChar path '/'
  if parts.length < 3 then
    .error (.S3UrlError path)
  else
    .ok (parts.getD 2 "", joinWith "/" (parts.drop 3))

/-- Embedding of `s3_reader` (`src/oneio/s3.rs`): fetch the object bytes
fully; failure of the get-object call is a network error. -/
def s3_reader (s : Sys) (bucket key : String) : Except OneIoError Reader :=
  match lookupL s.s3Objects (bucket, key) with
  | some bytes => .ok (.rawRemote (bucket ++ "/" ++ key) bytes)
  | none => .error (.Network ("s3 get-object failed: " ++ bucket ++ "/" ++ key))

/-- Embedding of `get_http_reader_raw` (`src/oneio/remote.rs`): issue the
GET request; a missing remote or a non-2xx status is a network error. -/
def get_http_reader_raw (s : Sys) (path : String) : Except OneIoError Reader :=
  match lookupL s.remote path with
  | some bytes => .ok (.rawRemote path bytes)
  | none => .error (.Network ("http request failed: " ++ path))

/-- Embedding of `get_ftp_reader_raw` (`src/oneio/remote.rs`): retrieve the
remote path as a stream; failure is a network error. -/
def get_ftp_reader_raw (s : Sys) (path : String) : Except OneIoError Reader :=
  match lookupL s.remote path with
  | some bytes => .ok (.rawRemote path bytes)
  | none => .error (.Network ("ftp retrieval failed: " ++ path))

/-- Embedding of `get_reader_raw` (`src/oneio/mod.rs`): protocol dispatch to
the raw source providers.  `http`/`https` and `ftp` delegate to the remote
collaborators, `s3`/`r2` parse the URL and fetch the object, an unrecognized
scheme is `NotSupported`, and no scheme opens a local file (an absent file
is an I/O error). -/
def get_reader_raw (s : Sys) (path : String) : Except OneIoError Reader :=
  match get_protocol path with
  | some protocol =>
    if protocol = "http" ∨ protocol = "https" then
      get_http_reader_raw s path
    else if protocol = "ftp" then
      get_ftp_reader_raw s path
    else if protocol = "s3" ∨ protocol = "r2" then
      match s3_url_parse path with
      | .error e => .error e
      | .ok (bucket, key) => s3_reader s bucket key
    else
      .error (.NotSupported path)
  | none =>
    match lookupL s.files path with
    | some bytes => .ok (.rawLocal path bytes)
    | none => .error (.Io ("No such file or directory: " ++ path))

/-- Embedding of `reader.read_to_end(&mut data)` for raw streams: the bytes
the stream delivers.  In this development it is only applied to readers
produced by `get_reader_raw`, which are always raw leaves (lemma
`get_reader_raw_leaf` below); on wrapped readers it returns the bytes of
the underlying leaf. -/
def read_to_end : Reader → List Nat
  | .rawLocal _ bytes => bytes
  | .rawRemote _ bytes => bytes
  | .progress _ inner => read_to_end inner
  | .decode _ inner => read_to_end inner

/-- Embedding of `get_writer_raw` followed by `write_all(&data)` and
`drop(writer)` (`src/oneio/mod.rs`): create/truncate the local file at
`path` and store `data` verbatim.  Parent-directory creation does not
affect the file map. -/
def write_all_raw (s : Sys) (path : String) (data : List Nat) : Sys :=
  { s with files := (path, data) :: s.files }

/-! ## Stream resolution pipeline (`src/oneio/mod.rs`) -/

/-- Embedding of `get_reader` (`src/oneio/mod.rs`): open the raw source,
then apply the codec registry at the suffix token
`path.rsplit(dot).next().unwrap_or(empty)`. -/
def get_reader (s : Sys) (path : String) : Except OneIoError Reader :=
  match get_reader_raw s path with
  | .error e => .error e
  | .ok raw_reader => get_compression_reader raw_reader (fileType path)

/-- Embedding of `get_writer` (`src/oneio/mod.rs`): create the local file,
then apply the codec registry at the suffix token. -/
def get_writer (path : String) : Except OneIoError Writer :=
  get_compression_writer (.rawFile path) (fileType path)

/-- The cache file path computed by `get_cache_reader`
(`src/oneio/mod.rs`): `cache_dir / (cache_file_name or the last
`/`-separated segment of the location)`. -/
def cache_path (path cache_dir : String) (cache_file_name : Option String) : String :=
  cache_dir ++ "/" ++
    (cache_file_name.getD ((splitOnChar path '/').getLastD "cached_file"))

/-- Embedding of `get_cache_reader` (`src/oneio/mod.rs`).  Returns the
resulting reader (or error), the updated world, and the log of raw open
operations performed.  Algorithm, as in the source: ensure the cache
directory exists (no effect on the file map); compute the cache file path;
if the cache file exists and `force_cache` is false, serve it through the
ordinary pipeline; otherwise open the location through the raw source
provider (no decoding), read it to completion, write the bytes verbatim to
the cache file, and serve the cache file through the ordinary pipeline. -/
def get_cache_reader (s : Sys) (path cache_dir : String)
    (cache_file_name : Option String) (force_cache : Bool) :
    Except OneIoError Reader × Sys × List Access :=
  let cache_file_path := cache_path path cache_dir cache_file_name
  if !force_cache && (lookupL s.files cache_file_path).isSome then
    (get_reader s cache_file_path, s, [.openRead cache_file_path])
  else
    match get_reader_raw s path with
    | .error e => (.error e, s, [.openRead path])
    | .ok reader =>
      let data := read_to_end reader
      let s2 := write_all_raw s cache_file_path data
      (get_reader s2 cache_file_path, s2,
        [.openRead path, .openWrite cache_file_path, .openRead cache_file_path])

/-! ## Progress decorator and content length (`src/oneio/mod.rs`) -/

/-- State of a `ProgressReader`: the cumulative byte counter, the total
size passed at construction, and the log of callback invocations (each
entry is the `(bytes_read, total_size)` argument pair). -/
structure ProgressState where
  bytes_read : Nat
  total_size : Nat
  calls : List (Nat × Nat)
deriving DecidableEq

/-- Embedding of one successful `ProgressReader::read` call
(`src/oneio/mod.rs`): `n` is the byte count returned by the underlying
read.  When `n > 0` the counter is incremented by `n` and the callback is
invoked once with the new cumulative count and the stored total; when
`n = 0` nothing happens. -/
def ProgressReader.readStep (st : ProgressState) (n : Nat) : ProgressState :=
  if n > 0 then
    { st with
      bytes_read := st.bytes_read + n,
      calls := st.calls ++ [(st.bytes_read + n, st.total_size)] }
  else
    st

/-- Embedding of `s3_stats` (`src/oneio/s3.rs`).  `head` is the outcome of
`s3_bucket(bucket)` + `bucket.head_object(path)`: an error from the S3
collaborator, or the head-object result with its status code.  A 2xx status
yields the result; any other status is an `S3DownloadError`. -/
def s3_stats (head : Except OneIoError (HeadObjectResult × Nat)) :
    Except OneIoError HeadObjectResult :=
  match head with
  | .error e => .error e
  | .ok (head_object, code) =>
    if 200 ≤ code ∧ code ≤ 299 then .ok head_object
    else .error (.S3DownloadError code)

/-- Embedding of `s3_exists` (`src/oneio/s3.rs`): only an
`S3DownloadError` from `s3_stats` is inspected; code 404 reports `false`,
any other code is propagated; every other outcome (success or any other
error variant) reports `true`. -/
def s3_exists (head : Except OneIoError (HeadObjectResult × Nat)) :
    Except OneIoError Bool :=
  match s3_stats head with
  | .error (.S3DownloadError code) =>
    if code = 404 then .ok false else .error (.S3DownloadError code)
  | _ => .ok true

/-- Embedding of `get_content_length` (`src/oneio/mod.rs`): protocol
dispatch.  HTTP issues a HEAD probe and fails with `NotSupported` when no
usable Content-Length header is present; FTP is not implemented; S3 reuses
the head-object size (an `i64` cast to `u64` in the source, modelled by the
wrap-around conversion); an unrecognized scheme is `NotSupported`; a local
path uses filesystem metadata. -/
def get_content_length (s : Sys) (path : String) : Except OneIoError Nat :=
  match get_protocol path with
  | some protocol =>
    if protocol = "http" ∨ protocol = "https" then
      match s.httpHeadLen path with
      | .error e => .error (.Network e)
      | .ok none =>
        .error (.NotSupported
          "Cannot determine file size - server does not provide Content-Length")
      | .ok (some n) => .ok n
    else if protocol = "ftp" then
      .error (.NotSupported "FTP size determination not yet implemented")
    else if protocol = "s3" ∨ protocol = "r2" then
      match s3_url_parse path with
      | .error e => .error e
      | .ok (bucket, key) =>
        match s3_stats (s.s3HeadObject bucket key) with
        | .error e => .error e
        | .ok stats =>
          match stats.content_length with
          | none =>
            .error (.NotSupported "S3 object does not have content length information")
          | some len => .ok (Int.toNat (len % (2 : Int) ^ 64))
    else
      .error (.NotSupported ("Protocol not supported for progress tracking: " ++ path))
  | none =>
    match lookupL s.files path with
    | some bytes => .ok bytes.length
    | none => .error (.Io ("metadata failed: " ++ path))

/-- Embedding of `get_reader_with_progress` (`src/oneio/mod.rs`): determine
the total size (degrading to `(0, none)` on any failure), open the raw
source, wrap it in the progress decorator carrying the total, then apply
the codec registry on top of the progress wrapper. -/
def get_reader_with_progress (s : Sys) (path : String) :
    Except OneIoError (Reader × Option Nat) :=
  let ts : Nat × Option Nat :=
    match get_content_length s path with
    | .ok size => (size, some size)
    | .error _ => (0, none)
  match get_reader_raw s path with
  | .error e => .error e
  | .ok raw_reader =>
    let progress_reader := Reader.progress ts.1 raw_reader
    match get_compression_reader progress_reader (fileType path) with
    | .error e => .error e
    | .ok final_reader => .ok (final_reader, ts.2)

/-! ## Download with retry (`src/oneio/remote.rs`) -/

/-- Loop body of `download_with_retry` (`src/oneio/remote.rs`).
`attempts k` is the outcome of the `k`-th sequential call of
`download(remote_path, local_path, opt_client.clone())`; each call restarts
the transfer from scratch (the sink is re-created by `get_writer_raw`
inside `download`).  On success the loop returns immediately; on failure it
decrements the remaining retry budget and tries again, and once the budget
is exhausted it returns the error of the final attempt. -/
def download_with_retry_from (attempts : Nat → Except OneIoError Unit) :
    Nat → Nat → Except OneIoError Unit
  | retry, k =>
    match attempts k with
    | .ok _ => .ok ()
    | .error e =>
      match retry with
      | 0 => .error e
      | Nat.succ r => download_with_retry_from attempts r (k + 1)

/-- Embedding of `download_with_retry` (`src/oneio/remote.rs`): run the
retry loop starting at attempt 0 with a budget of `retry` extra attempts. -/
def download_with_retry (attempts : Nat → Except OneIoError Unit)
    (retry : Nat) : Except OneIoError Unit :=
  download_with_retry_from attempts retry 0

/-! ## Helper lemmas -/

lemma takeWhile_append_of_all {α : Type} (p : α → Bool) (xs ys : List α)
    (h : ∀ a ∈ xs, p a = true) :
    (xs ++ ys).takeWhile p = xs ++ ys.takeWhile p := by
  induction xs with
  | nil => simp
  | cons a t ih =>
    simp only [List.cons_append, List.takeWhile_cons, h a (List.mem_cons_self a t)]
    rw [ih (fun b hb => h b (List.mem_cons_of_mem a hb))]
    simp

lemma takeWhile_append_of_ex {α : Type} (p : α → Bool) (xs ys : List α)
    (h : ∃ a ∈ xs, p a = false) :
    (xs ++ ys).takeWhile p = xs.takeWhile p := by
  induction xs with
  | nil =>
    rcases h with ⟨a, ha, _⟩
    simp at ha
  | cons a t ih =>
    by_cases hpa : p a = true
    · have hex : ∃ b ∈ t, p b = false := by
        rcases h with ⟨b, hb, hpb⟩
        rcases List.mem_cons.mp hb with hba | hbt
        · rw [hba] at hpb; rw [hpa] at hpb; cases hpb
        · exact ⟨b, hbt, hpb⟩
      simp only [List.cons_append, List.takeWhile_cons, hpa]
      rw [ih hex]
    · simp only [List.cons_append, List.takeWhile_cons]
      rw [Bool.not_eq_true] at hpa
      simp [hpa]

/-- The rightmost dot-separated segment is the reverse of the maximal
dot-free suffix when a dot occurs, and the whole list otherwise: the
independent characterization of "the substring after the last `.`". -/
lemma afterLastDot_eq (l : List Char) :
    afterLastDot l =
      if '.' ∈ l then (l.reverse.takeWhile (fun c => c ≠ '.')).reverse else l := by
  induction l with
  | nil => simp [afterLastDot]
  | cons c rest ih =>
    by_cases hr : '.' ∈ rest
    · have h1 : afterLastDot (c :: rest) = afterLastDot rest := by
        simp [afterLastDot, hr]
      rw [h1, ih, if_pos hr, if_pos (List.mem_cons_of_mem c hr)]
      rw [List.reverse_cons]
      rw [takeWhile_append_of_ex _ _ _ ⟨'.', by simpa using hr, by simp⟩]
    · by_cases hc : c = '.'
      · subst hc
        have h1 : afterLastDot ('.' :: rest) = rest := by
          simp [afterLastDot, hr]
        rw [h1, if_pos (List.mem_cons_self '.' rest)]
        rw [List.reverse_cons]
        rw [takeWhile_append_of_all _ _ _ (fun a ha => by
          have : a ∈ rest := List.mem_reverse.mp ha
          have hne : a ≠ '.' := fun hEq => hr (hEq ▸ this)
          simp [hne])]
        simp
      · have h1 : afterLastDot (c :: rest) = c :: rest := by
          simp [afterLastDot, hr, hc]
        have hnot : ¬('.' ∈ c :: rest) := by
          intro hmem
          rcases List.mem_cons.mp hmem with hEq | hmem2
          · exact hc hEq.symm
          · exact hr hmem2
        rw [h1, if_neg hnot]

/-- The codec registry either returns the reader unchanged or wraps it in
exactly one decode node; it never fails. -/
lemma get_compression_reader_shape (r : Reader) (sfx : String) :
    get_compression_reader r sfx = .ok r ∨
      ∃ c, get_compression_reader r sfx = .ok (.decode c r) := by
  unfold get_compression_reader OneIOGzip.get_reader OneIOBzip2.get_reader
    OneIOLz4.get_reader OneIOXz.get_reader OneIOZstd.get_reader
  split_ifs <;> first
    | exact Or.inl rfl
    | exact Or.inr ⟨_, rfl⟩

/-- The raw source provider returns an unwrapped raw stream: a local-file
leaf at the requested path, or a remote-transport leaf. -/
lemma get_reader_raw_leaf (s : Sys) (path : String) (r : Reader)
    (h : get_reader_raw s path = .ok r) :
    (∃ bytes, r = .rawLocal path bytes) ∨ (∃ loc bytes, r = .rawRemote loc bytes) := by
  unfold get_reader_raw at h
  cases hp : get_protocol path with
  | none =>
    rw [hp] at h
    cases hl : lookupL s.files path with
    | none => rw [hl] at h; cases h
    | some bytes =>
      rw [hl] at h
      exact Or.inl ⟨bytes, by cases h; rfl⟩
  | some protocol =>
    rw [hp] at h
    dsimp only at h
    split_ifs at h
    · unfold get_http_reader_raw at h
      cases hl : lookupL s.remote path with
      | none => rw [hl] at h; cases h
      | some bytes => rw [hl] at h; exact Or.inr ⟨path, bytes, by cases h; rfl⟩
    · unfold get_ftp_reader_raw at h
      cases hl : lookupL s.remote path with
      | none => rw [hl] at h; cases h
      | some bytes => rw [hl] at h; exact Or.inr ⟨path, bytes, by cases h; rfl⟩
    · cases hu : s3_url_parse path with
      | error e => rw [hu] at h; cases h
      | ok bk =>
        rw [hu] at h
        obtain ⟨bucket, key⟩ := bk
        unfold s3_reader at h
        cases hl : lookupL s.s3Objects (bucket, key) with
        | none => simp [hl] at h
        | some bytes =>
          simp only [hl] at h
          exact Or.inr ⟨bucket ++ "/" ++ key, bytes, by cases h; rfl⟩

/-! ## Shared concrete world for witnesses -/

/-- A small concrete world used to instantiate the theorems below: two
local files, one remote location whose HEAD probe carries no
Content-Length header, and no object storage. -/
def sysDemo : Sys where
  files := [("d/f.gz", [9, 9]), ("file.GZ", [7]), ("a.txt", [1, 2, 3])]
  remote := [("http://h/f.txt", [5, 6])]
  s3Objects := []
  httpHeadLen := fun _ => .ok none
  s3HeadObject := fun _ _ => .error (.Network "noop")

/-! ## Retry-loop lemmas -/

lemma download_with_retry_from_ok (attempts : Nat → Except OneIoError Unit)
    (retry k : Nat) (h : ∃ j, j ≤ retry ∧ attempts (k + j) = .ok ()) :
    download_with_retry_from attempts retry k = .ok () := by
  induction retry generalizing k with
  | zero =>
    obtain ⟨j, hj, hok⟩ := h
    have hj0 : j = 0 := Nat.le_zero.mp hj
    subst hj0
    rw [Nat.add_zero] at hok
    rw [download_with_retry_from, hok]
  | succ r ih =>
    rw [download_with_retry_from]
    cases ha : attempts k with
    | ok u => rfl
    | error e =>
      show download_with_retry_from attempts r (k + 1) = .ok ()
      obtain ⟨j, hj, hok⟩ := h
      cases j with
      | zero =>
        rw [Nat.add_zero] at hok
        rw [ha] at hok
        simp at hok
      | succ j0 =>
        refine ih (k + 1) ⟨j0, by omega, ?_⟩
        have hidx : k + 1 + j0 = k + (j0 + 1) := by omega
        rw [hidx]
        exact hok

lemma download_with_retry_from_fail (attempts : Nat → Except OneIoError Unit)
    (retry k : Nat) (h : ∀ j, j ≤ retry → attempts (k + j) ≠ .ok ()) :
    download_with_retry_from attempts retry k = attempts (k + retry) := by
  induction retry generalizing k with
  | zero =>
    rw [download_with_retry_from]
    cases ha : attempts k with
    | ok u =>
      have hne := h 0 (Nat.le_refl 0)
      rw [Nat.add_zero, ha] at hne
      cases u
      exact absurd rfl hne
    | error e =>
      conv_rhs => rw [Nat.add_zero]
      rw [ha]
  | succ r ih =>
    rw [download_with_retry_from]
    cases ha : attempts k with
    | ok u =>
      have hne := h 0 (Nat.zero_le _)
      rw [Nat.add_zero, ha] at hne
      cases u
      exact absurd rfl hne
    | error e =>
      show download_with_retry_from attempts r (k + 1) = attempts (k + (r + 1))
      rw [ih (k + 1) (fun j hj => by
        have hne := h (j + 1) (by omega)
        have hidx : k + (j + 1) = k + 1 + j := by omega
        rwa [hidx] at hne)]
      congr 1
      omega

/-! ## Claim theorems -/

/-- C3: a successful `ProgressReader::read` that yields `n > 0` bytes
increments the cumulative counter by exactly `n` and invokes the callback
exactly once with the pair (new cumulative count, stored total); a read
that yields 0 bytes (including end-of-stream) changes nothing and invokes
no callback. -/
theorem progress_read_step_spec (st : ProgressState) (n : Nat) :
    (0 < n →
      (ProgressReader.readStep st n).bytes_read = st.bytes_read + n ∧
      (ProgressReader.readStep st n).calls =
        st.calls ++ [(st.bytes_read + n, st.total_size)]) ∧
    (n = 0 → ProgressReader.readStep st n = st) := by
  constructor
  · intro hn
    constructor <;> simp [ProgressReader.readStep, hn]
  · intro hn
    subst hn
    simp [ProgressReader.readStep]

/-- Witness for C3: a 3-byte read at cumulative 4 moves the counter to 7
and fires the callback once with (7, 10); a 0-byte read is the identity. -/
theorem progress_read_step_spec_witness :
    ((ProgressReader.readStep ⟨4, 10, [(4, 10)]⟩ 3).bytes_read = 4 + 3 ∧
      (ProgressReader.readStep ⟨4, 10, [(4, 10)]⟩ 3).calls = [(4, 10)] ++ [(4 + 3, 10)]) ∧
    ProgressReader.readStep ⟨4, 10, [(4, 10)]⟩ 0 = ⟨4, 10, [(4, 10)]⟩ :=
  ⟨(progress_read_step_spec ⟨4, 10, [(4, 10)]⟩ 3).1 (by decide),
    (progress_read_step_spec ⟨4, 10, [(4, 10)]⟩ 0).2 rfl⟩

/-- C5: `download_with_retry` returns `Ok` as soon as some attempt among
attempts `0..retry` succeeds; when every one of the `retry + 1` sequential
attempts fails, it returns the outcome (the error) of the final attempt,
attempt number `retry`. -/
theorem download_with_retry_spec (attempts : Nat → Except OneIoError Unit)
    (retry : Nat) :
    ((∃ k, k ≤ retry ∧ attempts k = .ok ()) →
      download_with_retry attempts retry = .ok ()) ∧
    ((∀ k, k ≤ retry → attempts k ≠ .ok ()) →
      download_with_retry attempts retry = attempts retry) := by
  constructor
  · intro h
    exact download_with_retry_from_ok attempts retry 0 (by simpa using h)
  · intro h
    have := download_with_retry_from_fail attempts retry 0 (by simpa using h)
    simpa [download_with_retry] using this

/-- Witness for C5: with failures at attempts 0 and 1 and a success at
attempt 2, a budget of 2 retries yields `Ok`; with every attempt failing
with an I/O error, a budget of 1 retry yields exactly the final attempt's
error. -/
theorem download_with_retry_spec_witness :
    download_with_retry (fun k => if k < 2 then .error (.Network "boom") else .ok ()) 2 =
      .ok () ∧
    download_with_retry (fun _ => .error (.Io "disk full")) 1 = .error (.Io "disk full") :=
  ⟨(download_with_retry_spec (fun k => if k < 2 then .error (.Network "boom") else .ok ()) 2).1
      ⟨2, by decide, by decide⟩,
    (download_with_retry_spec (fun _ => .error (.Io "disk full")) 1).2
      (fun k _ => by simp)⟩

/-- C6: on a head-object response with status `code`, the existence check
reports `true` for a 2xx status, `false` for status 404, and propagates any
other status as an `S3DownloadError` rather than treating it as absence. -/
theorem s3_exists_status_cases (head_object : HeadObjectResult) (code : Nat) :
    s3_exists (.ok (head_object, code)) =
      (if 200 ≤ code ∧ code ≤ 299 then .ok true
       else if code = 404 then .ok false
       else .error (.S3DownloadError code)) := by
  unfold s3_exists s3_stats
  dsimp only
  by_cases h2 : 200 ≤ code ∧ code ≤ 299
  · rw [if_pos h2, if_pos h2]
  · rw [if_neg h2, if_neg h2]

/-- C10: `s3_exists` propagates only `S3DownloadError` status errors (and
maps 404 among them to `false`); any other failure of the head-object call
— network, credentials, I/O, URL, or not-supported errors — falls into the
catch-all branch and is reported as `Ok true`, as if the object existed. -/
theorem s3_exists_error_swallowing (m1 m2 m3 m4 : String) (code : Nat) :
    s3_exists (.error (.Network m1)) = .ok true ∧
    s3_exists (.error (.Io m2)) = .ok true ∧
    s3_exists (.error (.NotSupported m3)) = .ok true ∧
    s3_exists (.error (.S3UrlError m4)) = .ok true ∧
    s3_exists (.error (.S3DownloadError code)) =
      (if code = 404 then .ok false else .error (.S3DownloadError code)) := by
  refine ⟨rfl, rfl, rfl, rfl, ?_⟩
  by_cases h : code = 404 <;> simp [s3_exists, s3_stats, h]

/-- C7: a suffix token recognized by no codec leaves both the
decompression-reader lookup and the compression-writer lookup as the
identity, with no error; the decode-only lz4 codec rejects the writer
lookup with a `NotSupported` error carrying its descriptive message (for
both of its suffix aliases). -/
theorem compression_unknown_suffix_identity (sfx : String) (r : Reader) (w : Writer)
    (h : sfx ∉ (["gz", "gzip", "tgz", "bz2", "bz", "lz4", "lz",
                 "xz", "xz2", "lzma", "zst", "zstd"] : List String)) :
    get_compression_reader r sfx = .ok r ∧
    get_compression_writer w sfx = .ok w ∧
    get_compression_writer w "lz4" =
      .error (.NotSupported "lz4 writer is not currently supported.") ∧
    get_compression_writer w "lz" =
      .error (.NotSupported "lz4 writer is not currently supported.") := by
  simp only [List.mem_cons, List.not_mem_nil, or_false, not_or] at h
  obtain ⟨h1, h2, h3, h4, h5, h6, h7, h8, h9, h10, h11, h12⟩ := h
  refine ⟨?_, ?_, ?_, ?_⟩
  · simp [get_compression_reader, h1, h2, h3, h4, h5, h6, h7, h8, h9, h10, h11, h12]
  · simp [get_compression_writer, h1, h2, h3, h4, h5, h6, h7, h8, h9, h10, h11, h12]
  · simp [get_compression_writer, OneIOLz4.get_writer]
  · simp [get_compression_writer, OneIOLz4.get_writer]

/-- Witness for C7: the unknown suffix `txt` is the identity on both sides,
and the lz4 writer lookup fails with the descriptive message. -/
theorem compression_unknown_suffix_identity_witness :
    get_compression_reader (.rawLocal "a.txt" [1, 2]) "txt" = .ok (.rawLocal "a.txt" [1, 2]) ∧
    get_compression_writer (.rawFile "a.txt") "txt" = .ok (.rawFile "a.txt") ∧
    get_compression_writer (.rawFile "a.txt") "lz4" =
      .error (.NotSupported "lz4 writer is not currently supported.") ∧
    get_compression_writer (.rawFile "a.txt") "lz" =
      .error (.NotSupported "lz4 writer is not currently supported.") :=
  compression_unknown_suffix_identity "txt" (.rawLocal "a.txt" [1, 2]) (.rawFile "a.txt")
    (by decide)

/-- C1: on a forced refresh or a cache miss, `get_cache_reader` opens the
location through the raw source provider (whose stream is an undecoded raw
leaf), stores exactly those raw bytes verbatim at the cache file path — no
decompression while writing — and returns the ordinary pipeline applied to
the cache file, so codec decoding happens only on the read-back. -/
theorem get_cache_reader_miss_stores_raw (s : Sys) (path cache_dir : String)
    (cache_file_name : Option String) (force_cache : Bool) (reader : Reader)
    (hmiss : force_cache = true ∨
      lookupL s.files (cache_path path cache_dir cache_file_name) = none)
    (hraw : get_reader_raw s path = .ok reader) :
    get_cache_reader s path cache_dir cache_file_name force_cache =
      (get_reader
          (write_all_raw s (cache_path path cache_dir cache_file_name) (read_to_end reader))
          (cache_path path cache_dir cache_file_name),
        write_all_raw s (cache_path path cache_dir cache_file_name) (read_to_end reader),
        [.openRead path, .openWrite (cache_path path cache_dir cache_file_name),
          .openRead (cache_path path cache_dir cache_file_name)]) ∧
    lookupL
        (write_all_raw s (cache_path path cache_dir cache_file_name) (read_to_end reader)).files
        (cache_path path cache_dir cache_file_name) = some (read_to_end reader) ∧
    ((∃ bytes, reader = .rawLocal path bytes) ∨ (∃ loc bytes, reader = .rawRemote loc bytes)) := by
  have hcond : (!force_cache &&
      (lookupL s.files (cache_path path cache_dir cache_file_name)).isSome) = false := by
    rcases hmiss with hf | hl
    · rw [hf]; rfl
    · rw [hl]; simp
  refine ⟨?_, ?_, get_reader_raw_leaf s path reader hraw⟩
  · simp only [get_cache_reader, hcond, Bool.false_eq_true, if_false, hraw]
  · simp [write_all_raw, lookupL]

/-- Witness for C1: caching the remote location with an empty cache stores
its raw bytes at `cache/f.txt` and re-reads them through the pipeline. -/
theorem get_cache_reader_miss_stores_raw_witness :
    get_cache_reader sysDemo "http://h/f.txt" "cache" none false =
      (get_reader (write_all_raw sysDemo "cache/f.txt" [5, 6]) "cache/f.txt",
        write_all_raw sysDemo "cache/f.txt" [5, 6],
        [.openRead "http://h/f.txt", .openWrite "cache/f.txt", .openRead "cache/f.txt"]) ∧
    lookupL (write_all_raw sysDemo "cache/f.txt" [5, 6]).files "cache/f.txt" = some [5, 6] ∧
    ((∃ bytes, Reader.rawRemote "http://h/f.txt" [5, 6] = .rawLocal "http://h/f.txt" bytes) ∨
      (∃ loc bytes, Reader.rawRemote "http://h/f.txt" [5, 6] = .rawRemote loc bytes)) :=
  get_cache_reader_miss_stores_raw sysDemo "http://h/f.txt" "cache" none false
    (.rawRemote "http://h/f.txt" [5, 6]) (Or.inr (by decide)) (by decide)

/-- C4: when the cache file exists and `force` is false, `get_cache_reader`
returns the ordinary pipeline applied to the cache file, leaves the world
unchanged, and its only raw open is the cache file itself — in particular
any distinct original location is never opened, read, or contacted. -/
theorem get_cache_reader_hit_frame (s : Sys) (path cache_dir : String)
    (cache_file_name : Option String)
    (hexists : (lookupL s.files (cache_path path cache_dir cache_file_name)).isSome = true) :
    get_cache_reader s path cache_dir cache_file_name false =
      (get_reader s (cache_path path cache_dir cache_file_name), s,
        [.openRead (cache_path path cache_dir cache_file_name)]) ∧
    (path ≠ cache_path path cache_dir cache_file_name →
      Access.openRead path ∉ [Access.openRead (cache_path path cache_dir cache_file_name)]) := by
  constructor
  · simp only [get_cache_reader, hexists, Bool.not_false, Bool.true_and, if_true]
  · intro hne
    simp [hne]

/-- Witness for C4: with `d/f.gz` cached, reading the location `srv/f.gz`
(which does not even exist in the world) through the cache serves the cache
file, leaves the world unchanged, and never opens the original location. -/
theorem get_cache_reader_hit_frame_witness :
    get_cache_reader sysDemo "srv/f.gz" "d" none false =
      (get_reader sysDemo "d/f.gz", sysDemo, [.openRead "d/f.gz"]) ∧
    ("srv/f.gz" ≠ "d/f.gz" → Access.openRead "srv/f.gz" ∉ [Access.openRead "d/f.gz"]) :=
  get_cache_reader_hit_frame sysDemo "srv/f.gz" "d" none (by decide)

/-- C2: any reader returned by `get_reader_with_progress` is the codec
layer applied on top of the progress wrapper, which itself directly wraps
the raw transport stream: the progress decorator sits beneath the
compression decoder, so it counts raw pre-decompression bytes. -/
theorem get_reader_with_progress_order (s : Sys) (path : String) (r : Reader)
    (opt : Option Nat) (h : get_reader_with_progress s path = .ok (r, opt)) :
    ∃ total raw_reader, get_reader_raw s path = .ok raw_reader ∧
      (r = .progress total raw_reader ∨
        ∃ c, r = .decode c (.progress total raw_reader)) := by
  unfold get_reader_with_progress at h
  cases hlen : get_content_length s path with
  | ok size =>
    rw [hlen] at h
    dsimp only at h
    cases hraw : get_reader_raw s path with
    | error e => rw [hraw] at h; cases h
    | ok raw_reader =>
      rw [hraw] at h
      dsimp only at h
      rcases get_compression_reader_shape (.progress size raw_reader) (fileType path)
          with hc | ⟨c, hc⟩
      · rw [hc] at h
        injection h with h2
        injection h2 with hr hopt
        exact ⟨size, raw_reader, rfl, Or.inl hr.symm⟩
      · rw [hc] at h
        injection h with h2
        injection h2 with hr hopt
        exact ⟨size, raw_reader, rfl, Or.inr ⟨c, hr.symm⟩⟩
  | error e =>
    rw [hlen] at h
    dsimp only at h
    cases hraw : get_reader_raw s path with
    | error e2 => rw [hraw] at h; cases h
    | ok raw_reader =>
      rw [hraw] at h
      dsimp only at h
      rcases get_compression_reader_shape (.progress 0 raw_reader) (fileType path)
          with hc | ⟨c, hc⟩
      · rw [hc] at h
        injection h with h2
        injection h2 with hr hopt
        exact ⟨0, raw_reader, rfl, Or.inl hr.symm⟩
      · rw [hc] at h
        injection h with h2
        injection h2 with hr hopt
        exact ⟨0, raw_reader, rfl, Or.inr ⟨c, hr.symm⟩⟩

/-- Witness for C2: reading the local gzip file yields the gzip decoder on
top of the progress wrapper on top of the raw file leaf. -/
theorem get_reader_with_progress_order_witness :
    ∃ total raw_reader, get_reader_raw sysDemo "d/f.gz" = .ok raw_reader ∧
      (Reader.decode .gzip (.progress 2 (.rawLocal "d/f.gz" [9, 9])) =
          .progress total raw_reader ∨
        ∃ c, Reader.decode .gzip (.progress 2 (.rawLocal "d/f.gz" [9, 9])) =
          .decode c (.progress total raw_reader)) :=
  get_reader_with_progress_order sysDemo "d/f.gz"
    (.decode .gzip (.progress 2 (.rawLocal "d/f.gz" [9, 9]))) (some 2) (by decide)

/-- C9: when the content length cannot be determined but the raw source
opens, `get_reader_with_progress` still succeeds, reports the total as
`none`, and stores 0 as the total in the progress wrapper — so every
callback invocation receives 0 as its total argument; the failure to
determine the size never by itself aborts the read. -/
theorem get_reader_with_progress_unknown_size (s : Sys) (path : String)
    (e : OneIoError) (raw_reader : Reader)
    (hlen : get_content_length s path = .error e)
    (hraw : get_reader_raw s path = .ok raw_reader) :
    ∃ final_reader,
      get_reader_with_progress s path = .ok (final_reader, none) ∧
      (final_reader = .progress 0 raw_reader ∨
        ∃ c, final_reader = .decode c (.progress 0 raw_reader)) := by
  rcases get_compression_reader_shape (.progress 0 raw_reader) (fileType path)
      with hc | ⟨c, hc⟩
  · refine ⟨.progress 0 raw_reader, ?_, Or.inl rfl⟩
    unfold get_reader_with_progress
    rw [hlen]
    dsimp only
    rw [hraw]
    dsimp only
    rw [hc]
  · refine ⟨.decode c (.progress 0 raw_reader), ?_, Or.inr ⟨c, rfl⟩⟩
    unfold get_reader_with_progress
    rw [hlen]
    dsimp only
    rw [hraw]
    dsimp only
    rw [hc]

/-- Witness for C9: the remote location answers its HEAD probe without a
Content-Length header, yet the read succeeds with total `none` and a
progress wrapper carrying total 0. -/
theorem get_reader_with_progress_unknown_size_witness :
    ∃ final_reader,
      get_reader_with_progress sysDemo "http://h/f.txt" = .ok (final_reader, none) ∧
      (final_reader = .progress 0 (.rawRemote "http://h/f.txt" [5, 6]) ∨
        ∃ c, final_reader = .decode c (.progress 0 (.rawRemote "http://h/f.txt" [5, 6]))) :=
  get_reader_with_progress_unknown_size sysDemo "http://h/f.txt"
    (.NotSupported "Cannot determine file size - server does not provide Content-Length")
    (.rawRemote "http://h/f.txt" [5, 6]) (by decide) (by decide)

/-- C8 (counterexample): the read pipeline does not lower-case the suffix
token.  For the location `file.GZ` the token actually used is `GZ`, not the
lower-cased `gz`: the pipeline returns the raw reader unchanged, whereas
the registry at the lower-cased token would construct a gzip decoder. -/
theorem suffix_token_not_lowercased :
    fileType "file.GZ" = "GZ" ∧
    spec_suffix_token "file.GZ" = "gz" ∧
    fileType "file.GZ" ≠ spec_suffix_token "file.GZ" ∧
    get_reader sysDemo "file.GZ" = .ok (.rawLocal "file.GZ" [7]) ∧
    get_compression_reader (.rawLocal "file.GZ" [7]) (spec_suffix_token "file.GZ") =
      .ok (.decode .gzip (.rawLocal "file.GZ" [7])) := by
  decide

/-- C8 (amended): the suffix token used to select the codec in the read
pipeline is the literal substring after the last `.` in the location (the
whole location when it contains no `.`), matched case-sensitively with no
lower-casing. -/
theorem suffix_token_spec (s : Sys) (path : String) (raw_reader : Reader)
    (hraw : get_reader_raw s path = .ok raw_reader) :
    get_reader s path = get_compression_reader raw_reader (fileType path) ∧
    fileType path =
      String.mk (if '.' ∈ path.data
        then (path.data.reverse.takeWhile (fun c => c ≠ '.')).reverse
        else path.data) := by
  constructor
  · unfold get_reader
    rw [hraw]
  · unfold fileType
    rw [afterLastDot_eq]

/-- Witness for C8 (amended): the local file `a.txt` is read through the
registry at the token `txt`, the substring after the last dot. -/
theorem suffix_token_spec_witness :
    get_reader sysDemo "a.txt" =
      get_compression_reader (.rawLocal "a.txt" [1, 2, 3]) (fileType "a.txt") ∧
    fileType "a.txt" =
      String.mk (if '.' ∈ "a.txt".data
        then ("a.txt".data.reverse.takeWhile (fun c => c ≠ '.')).reverse
        else "a.txt".data) :=
  suffix_token_spec sysDemo "a.txt" (.rawLocal "a.txt" [1, 2, 3]) (by decide)

/-- Witness for C6: status 200 reports existence, status 404 reports
absence, and status 403 propagates as an error. -/
theorem s3_exists_status_cases_witness :
    s3_exists (.ok (⟨some 10⟩, 200)) = .ok true ∧
    s3_exists (.ok (⟨some 10⟩, 404)) = .ok false ∧
    s3_exists (.ok (⟨some 10⟩, 403)) = .error (.S3DownloadError 403) :=
  ⟨(s3_exists_status_cases ⟨some 10⟩ 200).trans (by decide),
    (s3_exists_status_cases ⟨some 10⟩ 404).trans (by decide),
    (s3_exists_status_cases ⟨some 10⟩ 403).trans (by decide)⟩

/-- Witness for C10: a credentials-style network failure of the head-object
call is reported as existence, and a 403 status error is propagated. -/
theorem s3_exists_error_swallowing_witness :
    s3_exists (.error (.Network "missing credentials")) = .ok true ∧
    s3_exists (.error (.Io "io")) = .ok true ∧
    s3_exists (.error (.NotSupported "ns")) = .ok true ∧
    s3_exists (.error (.S3UrlError "u")) = .ok true ∧
    s3_exists (.error (.S3DownloadError 403)) =
      (if 403 = 404 then .ok false else .error (.S3DownloadError 403)) :=
  s3_exists_error_swallowing "missing credentials" "io" "ns" "u" 403

end Oneio
